import Mathlib

/-!
Shallow embedding of the signal-propagation core of the
gemini-based-sound-interaction repository
(src/core/Signals.js, src/core/Interaction.js, main.js),
with theorems about its update, perturbation and event-translation rules.

Numbers are modelled as exact rationals.  The browser math functions the
code calls (Math.sin, Math.cos, Math.sqrt, Math.hypot, Math.acos) and
Math.PI are abstracted into a `MathEnv` record of rational functions;
facts about them that a theorem needs (for example `acos 1 = 0`) are taken
as hypotheses at the points where they are used.
-/

namespace SoundInteraction

/-- Abstract environment for the browser math functions used by the code. -/
structure MathEnv where
  sinF : ℚ → ℚ
  cosF : ℚ → ℚ
  sqrtF : ℚ → ℚ
  hypotF : ℚ → ℚ → ℚ
  acosF : ℚ → ℚ
  piQ : ℚ

/-- The scalar signal keys of `this.params` / `this.targets` in Signals.js
(every key except the 2-D `position`, which is embedded as the two
rational fields `posX`/`posY` of `SigVals`). -/
inductive SKey where
  | energy
  | focus
  | depth
  | resonance
  | texture
  | drag
  | dragActive
  | dragForce
  | velocity
  | sharpness
  | drift
deriving DecidableEq

/-- One signals record (used for both `this.params` and `this.targets`).
The `position: {x, y}` entry is flattened into `posX`/`posY`. -/
structure SigVals where
  energy : ℚ
  focus : ℚ
  depth : ℚ
  resonance : ℚ
  texture : ℚ
  drag : ℚ
  dragActive : ℚ
  dragForce : ℚ
  velocity : ℚ
  sharpness : ℚ
  posX : ℚ
  posY : ℚ
  drift : ℚ
deriving DecidableEq

/-- Dynamic read `record[key]` for the scalar keys. -/
def SigVals.get (v : SigVals) : SKey → ℚ
  | .energy => v.energy
  | .focus => v.focus
  | .depth => v.depth
  | .resonance => v.resonance
  | .texture => v.texture
  | .drag => v.drag
  | .dragActive => v.dragActive
  | .dragForce => v.dragForce
  | .velocity => v.velocity
  | .sharpness => v.sharpness
  | .drift => v.drift

/-- Dynamic write `record[key] = x` for the scalar keys. -/
def SigVals.set (v : SigVals) : SKey → ℚ → SigVals
  | .energy, x => { v with energy := x }
  | .focus, x => { v with focus := x }
  | .depth, x => { v with depth := x }
  | .resonance, x => { v with resonance := x }
  | .texture, x => { v with texture := x }
  | .drag, x => { v with drag := x }
  | .dragActive, x => { v with dragActive := x }
  | .dragForce, x => { v with dragForce := x }
  | .velocity, x => { v with velocity := x }
  | .sharpness, x => { v with sharpness := x }
  | .drift, x => { v with drift := x }

/-- The JavaScript property name of each scalar key. -/
def keyName : SKey → String
  | .energy => "energy"
  | .focus => "focus"
  | .depth => "depth"
  | .resonance => "resonance"
  | .texture => "texture"
  | .drag => "drag"
  | .dragActive => "dragActive"
  | .dragForce => "dragForce"
  | .velocity => "velocity"
  | .sharpness => "sharpness"
  | .drift => "drift"

/-- The membership test `key in this.targets` of Signals.js line 116: the
key set is fixed at construction to the twelve property names below
(the eleven scalar signals plus `position`). -/
def isValidName (name : String) : Bool :=
  name == "energy" || name == "focus" || name == "depth" ||
  name == "resonance" || name == "texture" || name == "drag" ||
  name == "dragActive" || name == "dragForce" || name == "velocity" ||
  name == "sharpness" || name == "position" || name == "drift"

/-- Resolution of a property name to a scalar key (`"position"` and unknown
names resolve to `none`). -/
def scalarKeyOfName (name : String) : Option SKey :=
  if name == "energy" then some .energy
  else if name == "focus" then some .focus
  else if name == "depth" then some .depth
  else if name == "resonance" then some .resonance
  else if name == "texture" then some .texture
  else if name == "drag" then some .drag
  else if name == "dragActive" then some .dragActive
  else if name == "dragForce" then some .dragForce
  else if name == "velocity" then some .velocity
  else if name == "sharpness" then some .sharpness
  else if name == "drift" then some .drift
  else none

/-- The constructor's `this.smoothing` table (scalar keys). -/
def smoothing : SKey → ℚ
  | .energy => 0.02
  | .focus => 0.05
  | .depth => 0.01
  | .resonance => 0.03
  | .texture => 0.02
  | .drag => 0.05
  | .dragActive => 0.2
  | .dragForce => 0.07
  | .velocity => 0.08
  | .sharpness => 0.08
  | .drift => 0.005

/-- The constructor's `this.smoothing.position` entry, used for both axes. -/
def smoothingPosition : ℚ := 0.08

/-- The shared signal state: smoothed `params` and raw `targets`
(Signals.js constructor; `targets` starts as a copy of `params`). -/
structure Signals where
  params : SigVals
  targets : SigVals
deriving DecidableEq

/-- Initial values of `this.params` from the Signals.js constructor. -/
def initVals : SigVals :=
  { energy := 0.08
    focus := 0.06
    depth := 0.5
    resonance := 0.2
    texture := 0.12
    drag := 0
    dragActive := 0
    dragForce := 0
    velocity := 0
    sharpness := 0
    posX := 0.5
    posY := 0.5
    drift := 0 }

/-- The documented initial signal state (`targets = { ...params }`). -/
def initSignals : Signals := { params := initVals, targets := initVals }

/-- The exponential-approach step `current += (target - current) * factor`. -/
def lerp (c t a : ℚ) : ℚ := c + (t - c) * a

/-- Signals.update (Signals.js lines 65-110).  The elapsed time
`(now - this.lastTime) / 1000` is passed in as `dt`; the body performs, in
source order: drift advance, the drift-derived floors on the energy and
focus targets, multiplicative idle decay of the six decaying targets
(dragActive is deliberately not decayed), and the smoothing loop in which
position is smoothed per axis, dragActive is copied directly, and every
other signal is smoothed exponentially. -/
def Signals.update (s : Signals) (env : MathEnv) (dt : ℚ) : Signals :=
  let drift1 := s.targets.drift + dt * 0.1
  let baseEnergy := 0.06 + env.sinF (drift1 * 0.6) * 0.02
  let baseFocus := 0.05 + env.cosF (drift1 * 0.4) * 0.02
  let t : SigVals :=
    { s.targets with
      drift := drift1
      energy := max s.targets.energy baseEnergy * 0.995
      focus := max s.targets.focus baseFocus * 0.99
      drag := s.targets.drag * 0.95
      velocity := s.targets.velocity * 0.88
      sharpness := s.targets.sharpness * 0.85
      dragForce := s.targets.dragForce * 0.86 }
  let p := s.params
  { targets := t
    params :=
      { energy := lerp p.energy t.energy (smoothing .energy)
        focus := lerp p.focus t.focus (smoothing .focus)
        depth := lerp p.depth t.depth (smoothing .depth)
        resonance := lerp p.resonance t.resonance (smoothing .resonance)
        texture := lerp p.texture t.texture (smoothing .texture)
        drag := lerp p.drag t.drag (smoothing .drag)
        dragActive := t.dragActive
        dragForce := lerp p.dragForce t.dragForce (smoothing .dragForce)
        velocity := lerp p.velocity t.velocity (smoothing .velocity)
        sharpness := lerp p.sharpness t.sharpness (smoothing .sharpness)
        posX := lerp p.posX t.posX smoothingPosition
        posY := lerp p.posY t.posY smoothingPosition
        drift := lerp p.drift t.drift (smoothing .drift) } }

/-- Phase 1 of the update step: `this.targets.drift += dt * 0.1`. -/
def phaseDrift (dt : ℚ) (s : Signals) : Signals :=
  { s with targets := { s.targets with drift := s.targets.drift + dt * 0.1 } }

/-- Phase 2 of the update step: the drift-derived floors
`targets.energy = max(targets.energy, baseEnergy)` and likewise for focus. -/
def phaseFloors (env : MathEnv) (s : Signals) : Signals :=
  { s with targets :=
    { s.targets with
      energy := max s.targets.energy (0.06 + env.sinF (s.targets.drift * 0.6) * 0.02)
      focus := max s.targets.focus (0.05 + env.cosF (s.targets.drift * 0.4) * 0.02) } }

/-- Phase 3 of the update step: multiplicative idle decay of the six
decaying targets (dragActive is not decayed). -/
def phaseDecay (s : Signals) : Signals :=
  { s with targets :=
    { s.targets with
      energy := s.targets.energy * 0.995
      focus := s.targets.focus * 0.99
      drag := s.targets.drag * 0.95
      velocity := s.targets.velocity * 0.88
      sharpness := s.targets.sharpness * 0.85
      dragForce := s.targets.dragForce * 0.86 } }

/-- Phase 4 of the update step: the smoothing loop (position per axis,
dragActive copied directly, every other signal lerped). -/
def phaseSmooth (s : Signals) : Signals :=
  { s with params :=
    { energy := lerp s.params.energy s.targets.energy (smoothing .energy)
      focus := lerp s.params.focus s.targets.focus (smoothing .focus)
      depth := lerp s.params.depth s.targets.depth (smoothing .depth)
      resonance := lerp s.params.resonance s.targets.resonance (smoothing .resonance)
      texture := lerp s.params.texture s.targets.texture (smoothing .texture)
      drag := lerp s.params.drag s.targets.drag (smoothing .drag)
      dragActive := s.targets.dragActive
      dragForce := lerp s.params.dragForce s.targets.dragForce (smoothing .dragForce)
      velocity := lerp s.params.velocity s.targets.velocity (smoothing .velocity)
      sharpness := lerp s.params.sharpness s.targets.sharpness (smoothing .sharpness)
      posX := lerp s.params.posX s.targets.posX smoothingPosition
      posY := lerp s.params.posY s.targets.posY smoothingPosition
      drift := lerp s.params.drift s.targets.drift (smoothing .drift) } }

/-- Signals.perturb (Signals.js lines 115-128).  Unknown names fail the
`key in this.targets` test and return unchanged.  For the scalar keys the
body is translated verbatim: a forced write sets both views, a non-forced
write on `energy` is additive with a cap of 1, and every other non-forced
write replaces the target.  The valid name `"position"` resolves to no
scalar key and is returned unchanged here: the program never calls perturb
with it (position is written only through setCursor), and a scalar write
into the position record lies outside this typed embedding. -/
def Signals.perturb (s : Signals) (name : String) (value : ℚ) (force : Bool) : Signals :=
  if isValidName name then
    match scalarKeyOfName name with
    | some k =>
      if force then
        { params := s.params.set k value, targets := s.targets.set k value }
      else if k = SKey.energy then
        { s with targets := s.targets.set .energy (min 1 (s.targets.energy + value)) }
      else
        { s with targets := s.targets.set k value }
    | none => s
  else s

/-- Signals.setCursor (Signals.js lines 130-133). -/
def Signals.setCursor (s : Signals) (x y : ℚ) : Signals :=
  { s with targets := { s.targets with posX := x, posY := y } }

/-- Local state of the event translator (Interaction.js constructor):
pressed flag, last pointer position, last displacement vector, last
sample time. -/
structure Interaction where
  isMouseDown : Bool
  lastX : ℚ
  lastY : ℚ
  lastVecX : ℚ
  lastVecY : ℚ
  lastTime : ℚ
deriving DecidableEq

/-- Initial translator state (`performance.now()` at construction is the
parameter `t0`). -/
def initInteraction (t0 : ℚ) : Interaction :=
  { isMouseDown := false, lastX := 0.5, lastY := 0.5
    lastVecX := 0, lastVecY := 0, lastTime := t0 }

/-- A pointer sample delivered to handleMove. -/
structure PointerEvent where
  clientX : ℚ
  clientY : ℚ
deriving DecidableEq

/-- The translator together with the signal state it writes. -/
structure World where
  inter : Interaction
  sig : Signals
deriving DecidableEq

/-- The world at process start (translator plus `initSignals`). -/
def initWorld (t0 : ℚ) : World :=
  { inter := initInteraction t0, sig := initSignals }

/-- The sharpness computation of Interaction.handleMove
(Interaction.js lines 53-61): if either the previous or the current
displacement vector has magnitude at most 0.0001 the angle computation is
skipped and the result is 0; otherwise the normalized dot product is
clamped into [-1, 1], sent through acos, divided by pi and capped at 1. -/
def sharpnessOf (env : MathEnv) (pvx pvy dx dy : ℚ) : ℚ :=
  if env.hypotF pvx pvy > 0.0001 ∧ env.hypotF dx dy > 0.0001 then
    min 1 (env.acosF (max (-1) (min 1
      ((pvx * dx + pvy * dy) / (env.hypotF pvx pvy * env.hypotF dx dy)))) / env.piQ)
  else 0

/-- Interaction.handleMove (Interaction.js lines 35-82).  The window size
and `performance.now()` are the parameters `winW`, `winH`, `now`.  In
source order: set the cursor target, drive velocity (replacement),
force-drive dragActive to the pressed flag, drive sharpness (replacement),
drive dragForce (replacement, 0 when not pressed), drive energy and focus
additively via perturb, drive drag when pressed, then refresh the local
position/vector/time state. -/
def Interaction.handleMove (env : MathEnv) (winW winH now : ℚ) (e : PointerEvent)
    (w : World) : World :=
  let x := e.clientX / winW
  let y := e.clientY / winH
  let sig1 := w.sig.setCursor x y
  let dx := x - w.inter.lastX
  let dy := y - w.inter.lastY
  let dist := env.sqrtF (dx * dx + dy * dy)
  let dt := max 0.001 ((now - w.inter.lastTime) / 1000)
  let speed := dist / dt
  let velocity := min 1 (speed / 3)
  let sig2 := sig1.perturb "velocity" velocity false
  let sharpness := sharpnessOf env w.inter.lastVecX w.inter.lastVecY dx dy
  let sig3 := sig2.perturb "dragActive" (if w.inter.isMouseDown then 1 else 0) true
  let sig4 := sig3.perturb "sharpness" sharpness false
  let dragForce :=
    if w.inter.isMouseDown then min 1 (0.05 + velocity * 0.9 + dist * 10) else 0
  let sig5 := sig4.perturb "dragForce" dragForce false
  let sig6 := sig5.perturb "energy" (dist * 2) false
  let sig7 := sig6.perturb "focus" (0.2 + dist * 5) false
  let sig8 := if w.inter.isMouseDown then sig7.perturb "drag" (dist * 10) false else sig7
  { inter :=
      { isMouseDown := w.inter.isMouseDown
        lastX := x, lastY := y
        lastVecX := dx, lastVecY := dy
        lastTime := now }
    sig := sig8 }

/-- Interaction.handleDown (Interaction.js lines 84-90): set the pressed
flag and perturb energy by 0.3, focus by 0.8 and resonance by 0.6 (all
with force = false). -/
def Interaction.handleDown (w : World) : World :=
  { inter := { w.inter with isMouseDown := true }
    sig := ((w.sig.perturb "energy" 0.3 false).perturb "focus" 0.8 false).perturb
      "resonance" 0.6 false }

/-- Interaction.handleUp (Interaction.js lines 92-94): clear the pressed
flag. -/
def Interaction.handleUp (w : World) : World :=
  { w with inter := { w.inter with isMouseDown := false } }

/-- The frame loop calling `signals.update()` once per frame with the
per-frame `dt` values of `dts`, with no perturbation in between. -/
def runUpdates (env : MathEnv) : List ℚ → Signals → Signals
  | [], s => s
  | dt :: rest, s => runUpdates env rest (s.update env dt)

/-- Observable phases of one App.loop iteration (main.js lines 38-59). -/
inductive Phase where
  | sigUpdate
  | audioUpdate
  | draw
  | ui
deriving DecidableEq

/-- The application state visible to App.loop: the persistent audio fault
flag and the shared signal state. -/
structure AppState where
  audioFaulted : Bool
  sig : Signals
deriving DecidableEq

/-- One iteration of App.loop (main.js lines 38-59): update the signals;
if not faulted, attempt the audio update inside try/catch, the catch
setting the persistent fault flag; then draw the visuals and update the
UI.  Whether `audioEngine.update()` throws on this invocation is the
external oracle `audioThrows`; the returned phase list records which steps
the iteration performed (`audioUpdate` marks an attempted audio update). -/
def App.tick (env : MathEnv) (dt : ℚ) (audioThrows : Bool) (st : AppState) :
    AppState × List Phase :=
  let sig1 := st.sig.update env dt
  if st.audioFaulted then
    ({ audioFaulted := true, sig := sig1 }, [Phase.sigUpdate, Phase.draw, Phase.ui])
  else if audioThrows then
    ({ audioFaulted := true, sig := sig1 },
      [Phase.sigUpdate, Phase.audioUpdate, Phase.draw, Phase.ui])
  else
    ({ audioFaulted := false, sig := sig1 },
      [Phase.sigUpdate, Phase.audioUpdate, Phase.draw, Phase.ui])

/-- Repeated App.loop iterations, one `(dt, audioThrows)` pair per frame,
returning the final state and the per-frame phase lists. -/
def App.run (env : MathEnv) : List (ℚ × Bool) → AppState → AppState × List (List Phase)
  | [], st => (st, [])
  | (dt, thr) :: rest, st =>
    let r := App.tick env dt thr st
    let rr := App.run env rest r.1
    (rr.1, r.2 :: rr.2)

/-- States reachable from the initial world through the program's own
writers: frame-loop update ticks, the pointer handlers of Interaction.js,
and setCursor. -/
inductive Reachable : World → Prop where
  | start (t0 : ℚ) : Reachable (initWorld t0)
  | tick (env : MathEnv) (dt : ℚ) {w : World} :
      Reachable w → Reachable { w with sig := w.sig.update env dt }
  | move (env : MathEnv) (winW winH now : ℚ) (e : PointerEvent) {w : World} :
      Reachable w → Reachable (Interaction.handleMove env winW winH now e w)
  | down {w : World} : Reachable w → Reachable (Interaction.handleDown w)
  | up {w : World} : Reachable w → Reachable (Interaction.handleUp w)
  | cursor (x y : ℚ) {w : World} :
      Reachable w → Reachable { w with sig := w.sig.setCursor x y }

/-- A concrete rational environment used to evaluate theorems at concrete
inputs.  Its entries satisfy, at the points the witnesses use, the facts
the theorems assume of the browser math functions. -/
def qEnv : MathEnv where
  sinF := fun _ => 0
  cosF := fun _ => 0
  sqrtF := fun x => if x = 1 then 1 else 0
  hypotF := fun x y =>
    if x ^ 2 + y ^ 2 = 1 then 1 else if x ^ 2 + y ^ 2 = 0 then 0 else 17
  acosF := fun x => if x = 1 then 0 else if x = -1 then 355 / 113 else 1
  piQ := 355 / 113

/-! ## Theorems -/

/-- C1 (amended claim): every call of Signals.update performs its phases
in the order the code states them: it first advances the drift
accumulator, then recomputes the floors (target = max(target,
floor(drift)) for energy and focus), then applies multiplicative decay to
the decaying signals, and only then applies exponential smoothing of every
signal's current toward its target (with the sustained/binary dragActive
copied directly and position smoothed per axis). -/
theorem update_phase_order (env : MathEnv) (dt : ℚ) (s : Signals) :
    s.update env dt = phaseSmooth (phaseDecay (phaseFloors env (phaseDrift dt s))) := rfl

/-- A concrete signal state (energy target 0.0601, everything else
initial) on which the two candidate phase orders disagree. -/
def driftCexState : Signals :=
  { initSignals with targets := { initSignals.targets with energy := 0.0601 } }

/-- C1 (counterexample): at a concrete state the phase order the claim
states (decay before the floors) disagrees on the energy target with what
Signals.update computes (floors before decay), so the claimed ordering is
false of the code. -/
theorem update_phase_order_cex :
    (phaseSmooth (phaseFloors qEnv (phaseDecay (phaseDrift 0 driftCexState)))).targets.energy
      ≠ (driftCexState.update qEnv 0).targets.energy := by
  have hL : (phaseSmooth (phaseFloors qEnv (phaseDecay
      (phaseDrift 0 driftCexState)))).targets.energy
      = max ((0.0601 : ℚ) * 0.995) (0.06 + 0 * 0.02) := rfl
  have hR : (driftCexState.update qEnv 0).targets.energy
      = max (0.0601 : ℚ) (0.06 + 0 * 0.02) * 0.995 := rfl
  rw [hL, hR, max_eq_right (by norm_num : (0.0601 : ℚ) * 0.995 ≤ 0.06 + 0 * 0.02),
    max_eq_left (by norm_num : (0.06 : ℚ) + 0 * 0.02 ≤ 0.0601)]
  norm_num

/-- C2 (confirmed): for every valid scalar signal name and every value v,
perturb with force = true sets both the signal's current value and its
target to v immediately, so a read of current before the next update tick
returns exactly v. -/
theorem perturb_force_immediate (k : SKey) (v : ℚ) (s : Signals) :
    (s.perturb (keyName k) v true).params.get k = v ∧
    (s.perturb (keyName k) v true).targets.get k = v := by
  cases k <;> exact ⟨rfl, rfl⟩

/-- C3 (confirmed): a non-forced perturb of energy sets the energy target
to min(1, target + v) and leaves params untouched; consequently, from any
state whose energy target is at most 1, after any finite sequence of such
calls with non-negative values the energy target never exceeds 1. -/
theorem perturb_energy_additive_capped :
    (∀ (v : ℚ) (s : Signals),
        (s.perturb "energy" v false).targets
            = s.targets.set .energy (min 1 (s.targets.energy + v)) ∧
        (s.perturb "energy" v false).params = s.params) ∧
    (∀ s : Signals, s.targets.energy ≤ 1 → ∀ vs : List ℚ, (∀ v ∈ vs, 0 ≤ v) →
        (vs.foldl (fun st v => st.perturb "energy" v false) s).targets.energy ≤ 1) := by
  refine ⟨fun v s => ⟨rfl, rfl⟩, ?_⟩
  intro s hs vs hvs
  induction vs generalizing s with
  | nil => exact hs
  | cons v rest ih =>
    simp only [List.foldl_cons]
    refine ih _ ?_ fun x hx => hvs x (List.mem_cons_of_mem _ hx)
    have hone : (s.perturb "energy" v false).targets.energy
        = min 1 (s.targets.energy + v) := rfl
    rw [hone]
    exact min_le_left 1 _

/-- C3 witness: the capped additive bound evaluated on a concrete burst of
perturbations from the initial state. -/
theorem perturb_energy_additive_capped_witness :
    (([0.5, 0.9, 0.25] : List ℚ).foldl (fun st v => st.perturb "energy" v false)
        initSignals).targets.energy ≤ 1 :=
  perturb_energy_additive_capped.2 initSignals
    (by norm_num [initSignals, initVals]) [0.5, 0.9, 0.25] (by norm_num)

/-- C4 (counterexample): on a press from the initial state the focus
target becomes 0.8 by replacement, not the additive min(1, previous + 0.8)
the claim states, so the claim that all three press bumps are additive is
false of the code. -/
theorem handleDown_focus_not_additive :
    (Interaction.handleDown (initWorld 0)).sig.targets.focus
      ≠ min 1 ((initWorld 0).sig.targets.focus + 0.8) := by
  have hL : (Interaction.handleDown (initWorld 0)).sig.targets.focus = 0.8 := rfl
  have h0 : (initWorld 0).sig.targets.focus = 0.06 := rfl
  rw [hL, h0, min_eq_right (by norm_num : (0.06 : ℚ) + 0.8 ≤ 1)]
  norm_num

/-- C4 (amended claim): on a press event, the energy target is bumped
additively by 0.3 (capped at 1), while the focus and resonance targets are
set by replacement to 0.8 and 0.6; the pressed flag is set. -/
theorem handleDown_bumps (w : World) :
    (Interaction.handleDown w).sig.targets.energy = min 1 (w.sig.targets.energy + 0.3) ∧
    (Interaction.handleDown w).sig.targets.focus = 0.8 ∧
    (Interaction.handleDown w).sig.targets.resonance = 0.6 ∧
    (Interaction.handleDown w).inter.isMouseDown = true :=
  ⟨rfl, rfl, rfl, rfl⟩

/-- C8 (confirmed): perturb with a name outside the fixed key set
established at construction is a silent no-op: the whole signal state,
targets and currents alike, is returned unchanged. -/
theorem perturb_unknown_noop (name : String) (h : isValidName name = false)
    (v : ℚ) (force : Bool) (s : Signals) : s.perturb name v force = s := by
  simp [Signals.perturb, h]

/-- C8 witness: a concrete unknown name with force = true leaves the
initial state unchanged. -/
theorem perturb_unknown_noop_witness :
    Signals.perturb initSignals "warp" 5 true = initSignals :=
  perturb_unknown_noop "warp" (by decide) 5 true initSignals

/-- C6 (confirmed): for every decaying signal that is neither
sustained/binary nor floor-bearing (drag, velocity, sharpness, dragForce),
starting from any state, after N consecutive update ticks with no
perturbation the signal's target equals its starting value times that
signal's per-tick decay rate raised to the N-th power. -/
theorem pure_decay_pow (env : MathEnv) (s : Signals) (dts : List ℚ) :
    (runUpdates env dts s).targets.drag = s.targets.drag * 0.95 ^ dts.length ∧
    (runUpdates env dts s).targets.velocity = s.targets.velocity * 0.88 ^ dts.length ∧
    (runUpdates env dts s).targets.sharpness = s.targets.sharpness * 0.85 ^ dts.length ∧
    (runUpdates env dts s).targets.dragForce = s.targets.dragForce * 0.86 ^ dts.length := by
  induction dts generalizing s with
  | nil => simp [runUpdates]
  | cons d l ih =>
    obtain ⟨h1, h2, h3, h4⟩ := ih (s.update env d)
    have e1 : (s.update env d).targets.drag = s.targets.drag * 0.95 := rfl
    have e2 : (s.update env d).targets.velocity = s.targets.velocity * 0.88 := rfl
    have e3 : (s.update env d).targets.sharpness = s.targets.sharpness * 0.85 := rfl
    have e4 : (s.update env d).targets.dragForce = s.targets.dragForce * 0.86 := rfl
    have hr : runUpdates env (d :: l) s = runUpdates env l (s.update env d) := rfl
    rw [hr]
    refine ⟨?_, ?_, ?_, ?_⟩
    · rw [h1, e1, List.length_cons, pow_succ]; ring
    · rw [h2, e2, List.length_cons, pow_succ]; ring
    · rw [h3, e3, List.length_cons, pow_succ]; ring
    · rw [h4, e4, List.length_cons, pow_succ]; ring

/-- Helper: one update tick keeps the smoothed energy strictly positive,
because the drift-derived floor puts the energy target at or above
0.04 * 0.995 before smoothing, provided the sine oscillator stays within
[-1, 1]. -/
lemma update_energy_pos (env : MathEnv) (hs : ∀ x, |env.sinF x| ≤ 1) (dt : ℚ)
    (s : Signals) (hp : 0 < s.params.energy) : 0 < (s.update env dt).params.energy := by
  have hb : -1 ≤ env.sinF ((s.targets.drift + dt * 0.1) * 0.6) := (abs_le.mp (hs _)).1
  have hfl : (0.04 : ℚ) ≤ max s.targets.energy
      (0.06 + env.sinF ((s.targets.drift + dt * 0.1) * 0.6) * 0.02) :=
    le_max_of_le_right (by nlinarith)
  have he : (s.update env dt).params.energy
      = s.params.energy + (max s.targets.energy
          (0.06 + env.sinF ((s.targets.drift + dt * 0.1) * 0.6) * 0.02) * 0.995
        - s.params.energy) * 0.02 := rfl
  rw [he]
  nlinarith [hfl, hp]

/-- C7 (confirmed): starting from the documented initial state, for every
finite sequence of update ticks with all perturbation inputs withheld, the
activity-level current value stays strictly greater than 0 after every
tick: the drift-derived floor keeps the energy target positive and
smoothing from a positive current toward a positive target never reaches
0.  The sine oscillator feeding the floor is assumed to stay in [-1, 1]. -/
theorem energy_never_zero (env : MathEnv) (hs : ∀ x, |env.sinF x| ≤ 1)
    (dts : List ℚ) : 0 < (runUpdates env dts initSignals).params.energy := by
  suffices h : ∀ (l : List ℚ) (s : Signals), 0 < s.params.energy →
      0 < (runUpdates env l s).params.energy by
    exact h dts initSignals (by norm_num [initSignals, initVals])
  intro l
  induction l with
  | nil => exact fun s hp => hp
  | cons d t ih => exact fun s hp => ih _ (update_energy_pos env hs d s hp)

/-- C7 witness: the bound evaluated after two concrete ticks from the
initial state, with a concrete bounded oscillator. -/
theorem energy_never_zero_witness :
    0 < (runUpdates qEnv [1, 1] initSignals).params.energy :=
  energy_never_zero qEnv (fun x => by norm_num [qEnv]) [1, 1]

/-- C9 (confirmed): in every App.loop iteration the signal update and the
visual draw are performed no matter what the audio collaborator does; an
audio throw on a non-faulted tick sets the persistent fault flag; on a
faulted tick the flag stays set and the audio update is not attempted; and
over any run of ticks starting from a faulted state the flag stays set and
every tick still performs the signal update and the draw while skipping
the audio update.  The loop itself is a total function, so the audio
failure never propagates out of the iteration. -/
theorem audio_fault_isolation :
    (∀ (env : MathEnv) (dt : ℚ) (thr : Bool) (st : AppState),
        (App.tick env dt thr st).1.sig = st.sig.update env dt ∧
        Phase.sigUpdate ∈ (App.tick env dt thr st).2 ∧
        Phase.draw ∈ (App.tick env dt thr st).2) ∧
    (∀ (env : MathEnv) (dt : ℚ) (st : AppState), st.audioFaulted = false →
        (App.tick env dt true st).1.audioFaulted = true) ∧
    (∀ (env : MathEnv) (dt : ℚ) (thr : Bool) (st : AppState), st.audioFaulted = true →
        (App.tick env dt thr st).1.audioFaulted = true ∧
        Phase.audioUpdate ∉ (App.tick env dt thr st).2) ∧
    (∀ (env : MathEnv) (ticks : List (ℚ × Bool)) (st : AppState), st.audioFaulted = true →
        (App.run env ticks st).1.audioFaulted = true ∧
        ∀ ph ∈ (App.run env ticks st).2,
          Phase.audioUpdate ∉ ph ∧ Phase.sigUpdate ∈ ph ∧ Phase.draw ∈ ph) := by
  have htick : ∀ (env : MathEnv) (dt : ℚ) (thr : Bool) (st : AppState),
      st.audioFaulted = true →
      App.tick env dt thr st
        = ({ audioFaulted := true, sig := st.sig.update env dt },
           [Phase.sigUpdate, Phase.draw, Phase.ui]) := by
    intro env dt thr st h
    simp [App.tick, h]
  refine ⟨?_, ?_, ?_, ?_⟩
  · intro env dt thr st
    rcases st with ⟨fa, sg⟩
    cases fa <;> cases thr <;> simp [App.tick]
  · intro env dt st h
    rcases st with ⟨fa, sg⟩
    cases h
    simp [App.tick]
  · intro env dt thr st h
    rw [htick env dt thr st h]
    exact ⟨rfl, by simp⟩
  · intro env ticks st h
    induction ticks generalizing st with
    | nil => exact ⟨h, by simp [App.run]⟩
    | cons head rest ih =>
      obtain ⟨dt, thr⟩ := head
      have hrun : App.run env ((dt, thr) :: rest) st
          = ((App.run env rest (App.tick env dt thr st).1).1,
             (App.tick env dt thr st).2 :: (App.run env rest (App.tick env dt thr st).1).2) := rfl
      rw [hrun, htick env dt thr st h]
      obtain ⟨h1, h2⟩ := ih { audioFaulted := true, sig := st.sig.update env dt } rfl
      refine ⟨h1, ?_⟩
      intro ph hph
      rcases List.mem_cons.mp hph with hph | hph
      · subst hph
        exact ⟨by simp, by simp, by simp⟩
      · exact h2 ph hph

/-- C9 witness: a concrete audio throw sets the flag; a concrete run from
a faulted state keeps the flag set. -/
theorem audio_fault_isolation_witness :
    (App.tick qEnv 1 true { audioFaulted := false, sig := initSignals }).1.audioFaulted
        = true ∧
    (App.run qEnv [(1, false), (1, true)]
        { audioFaulted := true, sig := initSignals }).1.audioFaulted = true :=
  ⟨audio_fault_isolation.2.1 qEnv 1 { audioFaulted := false, sig := initSignals } rfl,
   (audio_fault_isolation.2.2.2 qEnv [(1, false), (1, true)]
      { audioFaulted := true, sig := initSignals } rfl).1⟩

/-- Helper: handleMove force-writes dragActive to the pressed flag (1 when
pressed, 0 otherwise) in both views, and no later write of the handler
touches it. -/
lemma handleMove_dragActive (env : MathEnv) (winW winH now : ℚ) (e : PointerEvent)
    (w : World) :
    (Interaction.handleMove env winW winH now e w).sig.params.dragActive
        = (if w.inter.isMouseDown then 1 else 0) ∧
    (Interaction.handleMove env winW winH now e w).sig.targets.dragActive
        = (if w.inter.isMouseDown then 1 else 0) := by
  cases hb : w.inter.isMouseDown <;>
    (constructor <;> (simp only [Interaction.handleMove, hb]; rfl))

/-- C10 (confirmed): in every state reachable from the initial state
through the program's own writers (update ticks, the Interaction pointer
handlers, and setCursor), the dragActive signal's current value and its
target are each exactly 0 or exactly 1: the translator only ever
force-writes it to 0 or 1, update copies its target to current directly,
and no decay is applied to it. -/
theorem dragActive_binary {w : World} (h : Reachable w) :
    (w.sig.params.dragActive = 0 ∨ w.sig.params.dragActive = 1) ∧
    (w.sig.targets.dragActive = 0 ∨ w.sig.targets.dragActive = 1) := by
  induction h with
  | start t0 => exact ⟨Or.inl rfl, Or.inl rfl⟩
  | tick env dt hw ih => exact ⟨ih.2, ih.2⟩
  | move env winW winH now e hw ih =>
    rename_i w'
    obtain ⟨hp, ht⟩ := handleMove_dragActive env winW winH now e w'
    rw [hp, ht]
    cases w'.inter.isMouseDown <;> simp
  | down hw ih =>
    have hp : ∀ w' : World, (Interaction.handleDown w').sig.params.dragActive
        = w'.sig.params.dragActive := fun _ => rfl
    have ht : ∀ w' : World, (Interaction.handleDown w').sig.targets.dragActive
        = w'.sig.targets.dragActive := fun _ => rfl
    rw [hp, ht]
    exact ih
  | up hw ih => exact ih
  | cursor x y hw ih => exact ih

/-- C10 witness: the invariant evaluated at a concrete reachable state, a
press from the initial world. -/
theorem dragActive_binary_witness :
    ((Interaction.handleDown (initWorld 0)).sig.params.dragActive = 0 ∨
     (Interaction.handleDown (initWorld 0)).sig.params.dragActive = 1) ∧
    ((Interaction.handleDown (initWorld 0)).sig.targets.dragActive = 0 ∨
     (Interaction.handleDown (initWorld 0)).sig.targets.dragActive = 1) :=
  dragActive_binary (Reachable.down (Reachable.start 0))

/-- C5 (confirmed): the sharpness computed by the move handler is 1 for
anti-parallel non-zero displacement vectors, 0 for identical non-zero
vectors, and 0 — with the angle computation short-circuited — whenever
either the previous or the current displacement vector has magnitude
within the 0.0001 guard, which covers the very first sample (whose prior
vector is the zero vector); being a total rational function it yields
neither NaN nor an exception.  The last conjunct ties the computation to
the handler: the sharpness target after handleMove is exactly this value.
The facts assumed of the browser math functions (acos 1 = 0,
acos (-1) = pi, pi > 0, and the hypot products at the points used) hold
of the real functions and of their double-precision versions at these
points. -/
theorem sharpness_cases (env : MathEnv) :
    (∀ a b lam : ℚ, 0 < lam →
        0.0001 < env.hypotF a b → 0.0001 < env.hypotF (-(lam * a)) (-(lam * b)) →
        env.hypotF a b * env.hypotF (-(lam * a)) (-(lam * b)) = lam * (a ^ 2 + b ^ 2) →
        env.acosF (-1) = env.piQ → 0 < env.piQ →
        sharpnessOf env a b (-(lam * a)) (-(lam * b)) = 1) ∧
    (∀ a b : ℚ, 0.0001 < env.hypotF a b → (env.hypotF a b) ^ 2 = a ^ 2 + b ^ 2 →
        env.acosF 1 = 0 →
        sharpnessOf env a b a b = 0) ∧
    (∀ pvx pvy dx dy : ℚ, env.hypotF dx dy ≤ 0.0001 →
        sharpnessOf env pvx pvy dx dy = 0) ∧
    (∀ pvx pvy dx dy : ℚ, env.hypotF pvx pvy ≤ 0.0001 →
        sharpnessOf env pvx pvy dx dy = 0) ∧
    (∀ (winW winH now : ℚ) (e : PointerEvent) (w : World),
        (Interaction.handleMove env winW winH now e w).sig.targets.sharpness
          = sharpnessOf env w.inter.lastVecX w.inter.lastVecY
              (e.clientX / winW - w.inter.lastX) (e.clientY / winH - w.inter.lastY)) := by
  refine ⟨?_, ?_, ?_, ?_, ?_⟩
  · intro a b lam hlam hp hc hprod hacos hpi
    have hmag : 0 < env.hypotF a b * env.hypotF (-(lam * a)) (-(lam * b)) :=
      mul_pos (lt_trans (by norm_num) hp) (lt_trans (by norm_num) hc)
    have hne : lam * (a ^ 2 + b ^ 2) ≠ 0 := by
      rw [← hprod]; exact ne_of_gt hmag
    have hdot : (a * -(lam * a) + b * -(lam * b))
        / (env.hypotF a b * env.hypotF (-(lam * a)) (-(lam * b))) = -1 := by
      rw [hprod, div_eq_iff hne]; ring
    unfold sharpnessOf
    rw [if_pos ⟨hp, hc⟩, hdot,
      min_eq_right (by norm_num : (-1 : ℚ) ≤ 1), max_self, hacos,
      div_self (ne_of_gt hpi), min_self]
  · intro a b hp hsq hacos
    have hpos : 0 < env.hypotF a b := lt_trans (by norm_num) hp
    have h2 : env.hypotF a b * env.hypotF a b = a ^ 2 + b ^ 2 := by
      rw [← hsq]; ring
    have hab : a ^ 2 + b ^ 2 ≠ 0 := by
      rw [← h2]; exact ne_of_gt (mul_pos hpos hpos)
    have hdot : (a * a + b * b) / (env.hypotF a b * env.hypotF a b) = 1 := by
      rw [h2, div_eq_iff hab]; ring
    unfold sharpnessOf
    rw [if_pos ⟨hp, hp⟩, hdot, min_self,
      max_eq_right (by norm_num : (-1 : ℚ) ≤ 1), hacos, zero_div,
      min_eq_right (by norm_num : (0 : ℚ) ≤ 1)]
  · intro pvx pvy dx dy h
    exact if_neg (fun hcond => absurd hcond.2 (not_lt.mpr h))
  · intro pvx pvy dx dy h
    exact if_neg (fun hcond => absurd hcond.1 (not_lt.mpr h))
  · intro winW winH now e w
    cases hb : w.inter.isMouseDown <;>
      (simp only [Interaction.handleMove, hb]; rfl)

/-- C5 witness: the three cases evaluated at concrete vectors — previous
vector (1,0) against current (-1,0), (1,0) against itself, and the
degenerate zero-vector cases — in a concrete environment. -/
theorem sharpness_cases_witness :
    sharpnessOf qEnv 1 0 (-(1 * 1)) (-(1 * 0)) = 1 ∧
    sharpnessOf qEnv 1 0 1 0 = 0 ∧
    sharpnessOf qEnv 1 0 0 0 = 0 ∧
    sharpnessOf qEnv 0 0 1 0 = 0 :=
  ⟨(sharpness_cases qEnv).1 1 0 1 (by norm_num) (by norm_num [qEnv])
      (by norm_num [qEnv]) (by norm_num [qEnv]) (by norm_num [qEnv])
      (by norm_num [qEnv]),
   (sharpness_cases qEnv).2.1 1 0 (by norm_num [qEnv]) (by norm_num [qEnv])
      (by norm_num [qEnv]),
   (sharpness_cases qEnv).2.2.1 1 0 0 0 (by norm_num [qEnv]),
   (sharpness_cases qEnv).2.2.2.1 0 0 1 0 (by norm_num [qEnv])⟩

end SoundInteraction
